import Mathlib

/-!
Shallow embedding of `src/cpp/ffmpeg_ram/ffmpeg_ram_encode.cpp` (hwcodec).

External FFmpeg engine calls (frame/buffer allocation, send/receive,
device creation, `avcodec_open2`) are modelled as oracle parameters
carrying the observable result of each call; everything the repository's
own code computes is translated directly from the source.

Sizes, strides, heights and offsets are modelled as `Nat` (the engine
only hands out positive dimensions and strides, and C integer division
on non-negative operands agrees with `Nat` division); return codes and
timestamps are `Int` (they can be negative).
-/

namespace Hwcodec

/-- `AV_PIX_FMT_YUV420P` from FFmpeg's pixfmt.h. -/
def AV_PIX_FMT_YUV420P : Int := 0

/-- `AV_PIX_FMT_NV12` from FFmpeg's pixfmt.h. -/
def AV_PIX_FMT_NV12 : Int := 23

/-- `AV_NUM_DATA_POINTERS` (size of the linesize / offset arrays). -/
def AV_NUM_DATA_POINTERS : Nat := 8

/-- `calculate_offset_length` (ffmpeg_ram_encode.cpp lines 22-40): switch on
the pixel format; for YUV420P fills two offsets and the total length, for
NV12 one offset and the total length; any other tag is an error (`none`,
the source's `return -1`).  The returned offset array mirrors the caller's
`int offset[AV_NUM_DATA_POINTERS] = {0}` after the call. -/
def calculate_offset_length (pix_fmt : Int) (height : Nat) (linesize : List Nat) :
    Option (List Nat × Nat) :=
  if pix_fmt = AV_PIX_FMT_YUV420P then
    let o0 := linesize.getD 0 0 * height
    let o1 := o0 + linesize.getD 1 0 * height / 2
    let len := o1 + linesize.getD 2 0 * height / 2
    some ([o0, o1, 0, 0, 0, 0, 0, 0], len)
  else if pix_fmt = AV_PIX_FMT_NV12 then
    let o0 := linesize.getD 0 0 * height
    let len := o0 + linesize.getD 1 0 * height / 2
    some ([o0, 0, 0, 0, 0, 0, 0, 0], len)
  else
    none

/-- Result of the external `av_frame_get_buffer` call inside
`ffmpeg_ram_get_linesize_offset_length`: either a negative error code or a
successful allocation reporting the frame's linesize array. -/
inductive GetBufferOutcome
  | err (code : Int)
  | ok (linesize : List Nat)
  deriving DecidableEq

/-- The caller-visible output cells of `ffmpeg_ram_get_linesize_offset_length`:
each of the three out-pointers is `none` when the caller passed NULL, and
otherwise `some` of the array's (or int's) current contents. -/
structure GloOut where
  linesize : Option (List Nat)
  offset : Option (List Nat)
  length : Option Nat
  deriving DecidableEq

/-- The copy loop at lines 74-80 of the source: copy `ioffset` entries into
the caller's array, stopping at the first zero entry of `ioffset`; the
remaining caller entries are left untouched. -/
def copy_nonzero (src dst : List Nat) : List Nat :=
  match src, dst with
  | [], d => d
  | _ :: _, [] => []
  | x :: xs, d :: ds => if x = 0 then d :: ds else x :: copy_nonzero xs ds

/-- `ffmpeg_ram_get_linesize_offset_length` (lines 42-89).  `frameAllocOk`
is the outcome of `av_frame_alloc`, `gb` that of `av_frame_get_buffer`;
`out` holds the caller's three nullable out-parameters.  Returns the C
return code and the final contents of the out-parameters.  Note the order
in the source: the caller's linesize array is filled from the frame right
after the buffer allocation succeeds, BEFORE `calculate_offset_length`
runs, so it is written even when the format tag is unsupported. -/
def ffmpeg_ram_get_linesize_offset_length (pix_fmt : Int) (height : Nat)
    (frameAllocOk : Bool) (gb : GetBufferOutcome) (out : GloOut) :
    Int × GloOut :=
  if frameAllocOk = false then (-1, out)
  else
    match gb with
    | .err code => (code, out)
    | .ok ls =>
      let out1 : GloOut := { out with linesize := out.linesize.map (fun _ => ls) }
      if out1.offset.isSome ∨ out1.length.isSome then
        match calculate_offset_length pix_fmt height ls with
        | none => (-1, out1)
        | some (ioff, ilen) =>
          (0, { out1 with offset := out1.offset.map (copy_nonzero ioff),
                          length := out1.length.map (fun _ => ilen) })
      else
        (0, out1)

/-- Whether `p` is an initial segment of `s` (character lists). -/
def beginsWith : List Char → List Char → Bool
  | _, [] => true
  | [], _ :: _ => false
  | c :: cs, p :: ps => c = p && beginsWith cs ps

/-- Substring search on character lists: `std::string::find(pat) != npos`. -/
def containsSub : List Char → List Char → Bool
  | [], pat => beginsWith [] pat
  | c :: cs, pat => beginsWith (c :: cs) pat || containsSub cs pat

/-- `name_.find(pat) != std::string::npos` on the codec name. -/
def strContains (s pat : String) : Bool := containsSub s.data pat.data

/-- `AVHWDeviceType` values the encoder can select (constructor, lines
141-149): `AV_HWDEVICE_TYPE_NONE` (the field's initializer),
`AV_HWDEVICE_TYPE_VAAPI`, `AV_HWDEVICE_TYPE_D3D11VA`. -/
inductive AVHWDeviceType
  | none
  | vaapi
  | d3d11va
  deriving DecidableEq

/-- Hardware surface pixel formats the encoder can select:
`AV_PIX_FMT_NONE` (initializer), `AV_PIX_FMT_VAAPI`, `AV_PIX_FMT_D3D11`. -/
inductive HwPixFmt
  | none
  | vaapi
  | d3d11
  deriving DecidableEq

/-- The caller-supplied configuration: the constructor arguments of
`FFmpegRamEncoder` (lines 123-140). -/
structure EncoderCfg where
  name : String
  width : Nat
  height : Nat
  pixfmt : Int
  align : Nat
  bit_rate : Int
  time_base_num : Int
  time_base_den : Int
  gop : Int
  quality : Int
  rc : Int
  thread_count : Int
  gpu : Int
  deriving DecidableEq

/-- The encoder fields relevant to control flow after construction. -/
structure EncoderFields where
  cfg : EncoderCfg
  hw_device_type : AVHWDeviceType
  hw_pixfmt : HwPixFmt
  deriving DecidableEq

/-- The `FFmpegRamEncoder` constructor (lines 123-150): stores the config
and selects the hardware back-end by substring match on the codec name —
`"vaapi"` first, then `"nvenc"`, whose hardware branch is compiled only
under `_WIN32` (`isWin`); otherwise both hardware fields keep their
`NONE` initializers. -/
def mkEncoder (isWin : Bool) (cfg : EncoderCfg) : EncoderFields :=
  if strContains cfg.name "vaapi" then
    { cfg := cfg, hw_device_type := .vaapi, hw_pixfmt := .vaapi }
  else if strContains cfg.name "nvenc" then
    if isWin then
      { cfg := cfg, hw_device_type := .d3d11va, hw_pixfmt := .d3d11 }
    else
      { cfg := cfg, hw_device_type := .none, hw_pixfmt := .none }
  else
    { cfg := cfg, hw_device_type := .none, hw_pixfmt := .none }

/-- `FFmpegRamEncoder::set_bitrate` (lines 319-328): only names containing
`"nvenc"` or `"amf"` support a live bitrate change; they set
`c_->bit_rate` and return 0, every other name returns -1 and changes
nothing.  `cur` is the engine's current bitrate; the result pairs the
return code with the engine's bitrate after the call. -/
def set_bitrate (name : String) (cur : Int) (bitrate : Int) : Int × Int :=
  if strContains name "nvenc" || strContains name "amf" then
    (0, bitrate)
  else
    (-1, cur)

/-- Outcome of a call into `ffmpeg_ram_free_encoder` under the C++ object
model: `ok` for defined behavior, `ub` when the call runs into undefined
behavior (deleting through a dangling pointer). -/
inductive FreeOutcome
  | ok
  | ub
  deriving DecidableEq

/-- `ffmpeg_ram_free_encoder` (lines 463-473) over a heap model: `live`
lists the addresses of currently allocated encoders and `p` is the handle
(0 is NULL).  A NULL handle returns immediately (`if (!encoder) return`);
a live handle is freed (`delete encoder`); a non-null dangling handle —
e.g. a handle already destroyed — is `delete` through a dangling pointer,
which is undefined behavior in C++ (the `try`/`catch` cannot catch it). -/
def ffmpeg_ram_free_encoder (live : List Nat) (p : Nat) :
    FreeOutcome × List Nat :=
  if p = 0 then (.ok, live)
  else if p ∈ live then (.ok, live.erase p)
  else (.ub, live)

/-- `AVERROR(EAGAIN)`: the engine's "not ready / no packet yet" code. -/
def AVERROR_EAGAIN : Int := -11

/-- An encoded packet as observed from `avcodec_receive_packet`: its size
and whether `pkt->flags & AV_PKT_FLAG_KEY` is set. -/
structure AVPacketData where
  size : Nat
  isKey : Bool
  deriving DecidableEq

/-- The observable engine behavior during one `do_encode` call: the result
of `avcodec_send_frame`, the packets successively returned by
`avcodec_receive_packet`, and the negative code that finally ends the
drain loop (`AVERROR(EAGAIN)`, `AVERROR_EOF`, or a genuine error). -/
structure EngineCall where
  sendRet : Int
  pkts : List AVPacketData
  recvEndRet : Int
  deriving DecidableEq

/-- The per-session mutable state the pump touches: `first_ms_`
(initialized to 0 and reset to 0 in `init`). -/
structure EncState where
  first_ms : Int
  deriving DecidableEq

/-- One callback invocation: `callback_(pkt_->data, pkt_->size,
ms - first_ms_, pkt_->flags & AV_PKT_FLAG_KEY, obj)`. -/
structure CallbackRec where
  size : Nat
  pts : Int
  isKey : Bool
  deriving DecidableEq

/-- The body of `do_encode`'s drain loop (lines 367-379), iterated over
the packets the engine returns in this call: for each packet, latch
`first_ms_` if it is still 0, then invoke the callback with
`pts = ms - first_ms_`. -/
def drain_packets (s : EncState) (ms : Int) :
    List AVPacketData → EncState × List CallbackRec
  | [] => (s, [])
  | p :: ps =>
    let fm := if s.first_ms = 0 then ms else s.first_ms
    let rest := drain_packets ⟨fm⟩ ms ps
    (rest.1, ⟨p.size, ms - fm, p.isKey⟩ :: rest.2)

/-- `FFmpegRamEncoder::do_encode` (lines 359-383): a negative
`avcodec_send_frame` result is returned as-is with no callback; otherwise
the drain loop runs until the engine's negative code (whose value — EAGAIN
or not — only controls logging) and the function returns
`encoded ? 0 : -1`, i.e. -1 whenever zero packets were pulled. -/
def do_encode (e : EngineCall) (s : EncState) (ms : Int) :
    Int × EncState × List CallbackRec :=
  if e.sendRet < 0 then (e.sendRet, s, [])
  else
    let d := drain_packets s ms e.pkts
    ((if e.pkts.isEmpty then -1 else 0), d.1, d.2)

/-- The minimum buffer length `fill_frame` demands (lines 389-390 for
NV12, 401-403 for YUV420P): note the integer divisions apply to the
linesize BEFORE multiplying by the height, unlike
`calculate_offset_length`.  Unsupported formats never reach the length
check; the value 0 here is never compared. -/
def fill_min (format : Int) (height : Nat) (linesize : List Nat) : Nat :=
  if format = AV_PIX_FMT_NV12 then
    height * (linesize.getD 0 0 + linesize.getD 1 0 / 2)
  else if format = AV_PIX_FMT_YUV420P then
    height * (linesize.getD 0 0 + linesize.getD 1 0 / 2 + linesize.getD 2 0 / 2)
  else
    0

/-- `FFmpegRamEncoder::fill_frame` (lines 385-421): checks the data length
against `fill_min` and, on success, maps the caller's buffer into the
frame's plane pointers at the precomputed offsets (returned here as the
list of plane byte offsets into `data`); a short buffer or an unsupported
format is an error (`none`, the source's `return -1`). -/
def fill_frame (format : Int) (height : Nat) (linesize : List Nat)
    (data_length : Nat) (offset : List Nat) : Option (List Nat) :=
  if format = AV_PIX_FMT_NV12 then
    if data_length < fill_min format height linesize then none
    else some [0, offset.getD 0 0]
  else if format = AV_PIX_FMT_YUV420P then
    if data_length < fill_min format height linesize then none
    else some [0, offset.getD 0 0, offset.getD 1 0]
  else
    none

/-- The per-call external outcomes `FFmpegRamEncoder::encode` depends on:
`av_frame_make_writable`, `av_hwframe_transfer_data` (consulted only on
the hardware path), and the engine's send/receive behavior. -/
structure EncodeEnv where
  makeWritableRet : Int
  hwTransferRet : Int
  engine : EngineCall
  deriving DecidableEq

/-- `FFmpegRamEncoder::encode` (lines 283-304): make the working frame
writable, fill it from the caller's buffer (length check), optionally
upload to the hardware frame, then run `do_encode`.  The final `Bool`
records whether a frame reached the engine (i.e. whether `do_encode` was
invoked). -/
def encode (enc : EncoderFields) (linesize offset : List Nat)
    (env : EncodeEnv) (s : EncState) (data_length : Nat) (ms : Int) :
    Int × EncState × List CallbackRec × Bool :=
  if ¬(env.makeWritableRet = 0) then (env.makeWritableRet, s, [], false)
  else
    match fill_frame enc.cfg.pixfmt enc.cfg.height linesize data_length offset with
    | none => (-1, s, [], false)
    | some _ =>
      if enc.hw_device_type ≠ .none ∧ env.hwTransferRet < 0 then
        (env.hwTransferRet, s, [], false)
      else
        let r := do_encode env.engine s ms
        (r.1, r.2.1, r.2.2, true)

/-- A session's life after `init` (which sets `first_ms_ = 0`): a sequence
of `do_encode` calls, each with the engine's behavior for that call and
the caller's `ms`; accumulates every callback invocation in order. -/
def runSessionFrom (s : EncState) :
    List (EngineCall × Int) → EncState × List CallbackRec
  | [] => (s, [])
  | c :: cs =>
    let r := do_encode c.1 s c.2
    let rest := runSessionFrom r.2.1 cs
    (rest.1, r.2.2 ++ rest.2)

/-- A whole session: `first_ms_` starts at 0. -/
def runSession (calls : List (EngineCall × Int)) : EncState × List CallbackRec :=
  runSessionFrom ⟨0⟩ calls

/-- The timestamp each delivered packet is stamped with, in delivery
order: every packet drained during a call carries that call's `ms`
(a call whose `avcodec_send_frame` fails drains nothing). -/
def packetMsList (calls : List (EngineCall × Int)) : List Int :=
  calls.flatMap fun c =>
    if c.1.sendRet < 0 then [] else c.1.pkts.map fun _ => c.2

/-- The value `first_ms_` ends up latched to over a run: the first nonzero
delivered timestamp (0 acts as the "unset" sentinel in the source, so
leading zero timestamps never latch).  Defaults to 1 (any positive value)
when every delivered timestamp is 0, in which case every pts is 0. -/
def latchAnchor (msl : List Int) : Int :=
  ((msl.filter fun x => x ≠ 0).headD 1)

/-- The engine-context fields `init` assigns (lines 225-253), as far as
they are plain assignments: `Option` fields are engine defaults when
`none` (not explicitly set by this code). -/
structure AVCodecContext where
  width : Nat
  height : Nat
  pixFmtIsHwSurface : Bool
  sw_pix_fmt : Int
  gop_size : Int
  bit_rate : Option Int
  rc_max_rate : Option Int
  time_base_num : Int
  time_base_den : Int
  thread_count : Int
  deriving DecidableEq

/-- The context as `avcodec_alloc_context3` hands it out: every field at
its engine default (the numeric fields are placeholders; the claims only
inspect the `Option` fields and the assignments below). -/
def defaultCtx : AVCodecContext :=
  { width := 0, height := 0, pixFmtIsHwSurface := false, sw_pix_fmt := 0,
    gop_size := 0, bit_rate := none, rc_max_rate := none,
    time_base_num := 0, time_base_den := 0, thread_count := 0 }

/-- The parameter block of `init` (lines 225-253): dimensions, pixel
format (hardware surface when a hardware format was selected), GOP,
bitrate only when `bit_rate_ >= 1000` (with `rc_max_rate` additionally
for qsv names), timebase and thread count. -/
def configureCtx (enc : EncoderFields) (c : AVCodecContext) : AVCodecContext :=
  { c with
    width := enc.cfg.width, height := enc.cfg.height,
    pixFmtIsHwSurface := enc.hw_pixfmt ≠ .none,
    sw_pix_fmt := enc.cfg.pixfmt,
    gop_size := enc.cfg.gop,
    bit_rate := if 1000 ≤ enc.cfg.bit_rate then some enc.cfg.bit_rate else c.bit_rate,
    rc_max_rate :=
      if 1000 ≤ enc.cfg.bit_rate ∧ strContains enc.cfg.name "qsv" then
        some enc.cfg.bit_rate
      else c.rc_max_rate,
    time_base_num := enc.cfg.time_base_num,
    time_base_den := enc.cfg.time_base_den,
    thread_count := enc.cfg.thread_count }

/-- Events in the order `init` performs its engine calls; the
`hwframe_ctx_init` event records the frame-pool parameters written into
the `AVHWFramesContext` just before `av_hwframe_ctx_init` (lines
341-346), and `bind_frames_ctx` the assignment of
`c_->hw_frames_ctx` (line 350). -/
inductive Ev
  | hwdevice_ctx_create
  | hwframe_ctx_alloc
  | hwframe_ctx_init (poolSize w h : Nat) (fmt : HwPixFmt) (swFmt : Int)
  | bind_frames_ctx
  | hwframe_get_buffer
  | frame_get_buffer
  | open2
  | layout_query
  deriving DecidableEq

/-- The outcomes of the external calls `init` makes, in source order. -/
structure InitEnv where
  findCodecOk : Bool
  allocCtxOk : Bool
  hwDevRet : Int
  hwFrameCtxAllocOk : Bool
  hwFrameCtxInitRet : Int
  bufferRefOk : Bool
  hwFrameAllocOk : Bool
  hwGetBufferRet : Int
  hwFrameHasCtx : Bool
  frameAllocOk : Bool
  frameGetBufferRet : Int
  pktAllocOk : Bool
  latencyFreeOk : Bool
  open2Ret : Int
  layoutOk : Bool
  deriving DecidableEq

/-- `FFmpegRamEncoder::set_hwframe_ctx` (lines 331-357): allocate the
frames context, write its format / sw-format / width / height and
`initial_pool_size = 1`, initialize it, and bind it to the codec context
via `av_buffer_ref`.  Returns the error code and the events performed
(`bind_frames_ctx` only when the ref succeeded, i.e. when
`c_->hw_frames_ctx` actually received the pool). -/
def set_hwframe_ctx (enc : EncoderFields) (env : InitEnv) : Int × List Ev :=
  if env.hwFrameCtxAllocOk = false then (-1, [.hwframe_ctx_alloc])
  else
    let evInit : Ev :=
      .hwframe_ctx_init 1 enc.cfg.width enc.cfg.height enc.hw_pixfmt enc.cfg.pixfmt
    if env.hwFrameCtxInitRet < 0 then
      (env.hwFrameCtxInitRet, [.hwframe_ctx_alloc, evInit])
    else if env.bufferRefOk = false then
      (-1, [.hwframe_ctx_alloc, evInit])
    else
      (0, [.hwframe_ctx_alloc, evInit, .bind_frames_ctx])

/-- The tail of `init` after the optional hardware block (lines 206-280):
allocate the CPU working frame and its buffer, allocate the packet, set
the context parameters, apply the latency-free option (which can fail),
open the engine, and compute the layout. -/
def init_rest (enc : EncoderFields) (env : InitEnv) (tr : List Ev) :
    Bool × List Ev × AVCodecContext :=
  if env.frameAllocOk = false then (false, tr, defaultCtx)
  else if env.frameGetBufferRet < 0 then
    (false, tr ++ [.frame_get_buffer], defaultCtx)
  else if env.pktAllocOk = false then
    (false, tr ++ [.frame_get_buffer], defaultCtx)
  else if env.latencyFreeOk = false then
    (false, tr ++ [.frame_get_buffer], configureCtx enc defaultCtx)
  else if env.open2Ret < 0 then
    (false, tr ++ [.frame_get_buffer, .open2], configureCtx enc defaultCtx)
  else if env.layoutOk = false then
    (false, tr ++ [.frame_get_buffer, .open2, .layout_query], configureCtx enc defaultCtx)
  else
    (true, tr ++ [.frame_get_buffer, .open2, .layout_query], configureCtx enc defaultCtx)

/-- `FFmpegRamEncoder::init` (lines 154-281): find the codec, allocate
the context, run the hardware block (device creation, frames-context
setup, hardware frame acquisition) only when a hardware device type was
selected, then the common tail.  Returns success, the ordered list of
engine-call events, and the configured context. -/
def init (enc : EncoderFields) (env : InitEnv) : Bool × List Ev × AVCodecContext :=
  if env.findCodecOk = false then (false, [], defaultCtx)
  else if env.allocCtxOk = false then (false, [], defaultCtx)
  else if enc.hw_device_type ≠ .none then
    if env.hwDevRet < 0 then (false, [.hwdevice_ctx_create], defaultCtx)
    else if (set_hwframe_ctx enc env).1 ≠ 0 then
      (false, Ev.hwdevice_ctx_create :: (set_hwframe_ctx enc env).2, defaultCtx)
    else if env.hwFrameAllocOk = false then
      (false, Ev.hwdevice_ctx_create :: (set_hwframe_ctx enc env).2, defaultCtx)
    else if env.hwGetBufferRet < 0 then
      (false, Ev.hwdevice_ctx_create :: (set_hwframe_ctx enc env).2 ++ [.hwframe_get_buffer],
        defaultCtx)
    else if env.hwFrameHasCtx = false then
      (false, Ev.hwdevice_ctx_create :: (set_hwframe_ctx enc env).2 ++ [.hwframe_get_buffer],
        defaultCtx)
    else
      init_rest enc env
        (Ev.hwdevice_ctx_create :: (set_hwframe_ctx enc env).2 ++ [.hwframe_get_buffer])
  else
    init_rest enc env []

/-- An `InitEnv` in which every external call succeeds. -/
def allOkEnv : InitEnv :=
  { findCodecOk := true, allocCtxOk := true, hwDevRet := 0,
    hwFrameCtxAllocOk := true, hwFrameCtxInitRet := 0, bufferRefOk := true,
    hwFrameAllocOk := true, hwGetBufferRet := 0, hwFrameHasCtx := true,
    frameAllocOk := true, frameGetBufferRet := 0, pktAllocOk := true,
    latencyFreeOk := true, open2Ret := 0, layoutOk := true }

/-- A concrete software-path configuration (YUV420P, width 6, height 2,
alignment 1, so the engine reports the odd chroma stride 3). -/
def sampleSwCfg : EncoderCfg :=
  { name := "libx264", width := 6, height := 2, pixfmt := AV_PIX_FMT_YUV420P,
    align := 1, bit_rate := 2000000, time_base_num := 1, time_base_den := 30,
    gop := 0xFFFF, quality := 0, rc := 0, thread_count := 1, gpu := 0 }

/-- A concrete VAAPI hardware configuration. -/
def sampleVaapiCfg : EncoderCfg :=
  { name := "h264_vaapi", width := 64, height := 64, pixfmt := AV_PIX_FMT_NV12,
    align := 0, bit_rate := 2000000, time_base_num := 1, time_base_den := 30,
    gop := 0xFFFF, quality := 0, rc := 0, thread_count := 1, gpu := 0 }

/-- An engine call that accepts the frame and yields exactly one packet. -/
def onePkt : EngineCall := ⟨0, [⟨100, false⟩], AVERROR_EAGAIN⟩

/-- The constructor's hardware selection as the (amended) specification
words it: `"vaapi"` is checked first, and a name containing `"nvenc"` but
not `"vaapi"` selects D3D11 only on Windows.  Compared against
`mkEncoder` in the C10 theorem. -/
def hwSelectSpec (isWin : Bool) (name : String) : AVHWDeviceType × HwPixFmt :=
  if strContains name "vaapi" then (.vaapi, .vaapi)
  else if strContains name "nvenc" && isWin then (.d3d11va, .d3d11)
  else (.none, .none)

/-! ## Theorems -/

/-- Claim C1, counterexample: the engine accepts the frame
(`avcodec_send_frame` returns 0) and the drain loop pulls zero packets
because the engine reports EAGAIN, yet `do_encode` returns -1 — not the
success (0) the claim asserts — with zero callback invocations. -/
theorem c1_counterexample :
    (do_encode ⟨0, [], AVERROR_EAGAIN⟩ ⟨0⟩ 42).1 = -1 ∧
    (do_encode ⟨0, [], AVERROR_EAGAIN⟩ ⟨0⟩ 42).2.2 = [] ∧
    (-1 : Int) ≠ 0 := by decide

/-- Claim C1, amended: when the engine accepts the frame, `do_encode`
returns 0 exactly when at least one packet was pulled; pulling zero
packets — whether the terminating engine code was EAGAIN or a genuine
error — returns -1 with zero callback invocations and unchanged state,
and the terminating code has no influence on the result at all (it only
controls logging). -/
theorem c1_amended_drain_result (e : EngineCall) (s : EncState) (ms : Int)
    (hsend : 0 ≤ e.sendRet) :
    ((do_encode e s ms).1 = 0 ↔ e.pkts ≠ []) ∧
    (e.pkts = [] → do_encode e s ms = (-1, s, [])) ∧
    (∀ r, do_encode { e with recvEndRet := r } s ms = do_encode e s ms) := by
  have hns : ¬ e.sendRet < 0 := not_lt.mpr hsend
  refine ⟨?_, ?_, fun r => rfl⟩
  · cases hp : e.pkts <;> simp [do_encode, hns, hp]
  · intro hp
    simp [do_encode, hns, hp, drain_packets]

/-- Witness for the amended C1 theorem at a concrete engine call. -/
theorem c1_amended_drain_result_witness :
    (0 : Int) ≤ 0 ∧ do_encode ⟨0, [], -11⟩ ⟨7⟩ 5 = (-1, ⟨7⟩, []) :=
  ⟨le_refl 0, (c1_amended_drain_result ⟨0, [], -11⟩ ⟨7⟩ 5 (by decide)).2.1 rfl⟩

/-- Claim C2: for positive engine-supplied strides and an even positive
height, the 4:2:0 planar layout has `offset[0] = stride0*height`,
`offset[1] = offset[0] + stride1*height/2`,
`length = offset[1] + stride2*height/2`, and the 4:2:0 semi-planar layout
has `offset[0] = stride0*height`, `length = offset[0] + stride1*height/2`;
the offsets are strictly increasing and below the total length. -/
theorem c2_layout_formulas (h ls0 ls1 ls2 : Nat) (hh : 0 < h) (he : 2 ∣ h)
    (h0 : 0 < ls0) (h1 : 0 < ls1) (h2 : 0 < ls2) :
    calculate_offset_length AV_PIX_FMT_YUV420P h [ls0, ls1, ls2, 0, 0, 0, 0, 0] =
      some ([ls0 * h, ls0 * h + ls1 * h / 2, 0, 0, 0, 0, 0, 0],
        ls0 * h + ls1 * h / 2 + ls2 * h / 2) ∧
    calculate_offset_length AV_PIX_FMT_NV12 h [ls0, ls1, ls2, 0, 0, 0, 0, 0] =
      some ([ls0 * h, 0, 0, 0, 0, 0, 0, 0], ls0 * h + ls1 * h / 2) ∧
    0 < ls0 * h ∧
    ls0 * h < ls0 * h + ls1 * h / 2 ∧
    ls0 * h + ls1 * h / 2 < ls0 * h + ls1 * h / 2 + ls2 * h / 2 := by
  have h2le : 2 ≤ h := Nat.le_of_dvd hh he
  have e1 : 0 < ls1 * h / 2 :=
    Nat.div_pos (le_trans h2le (Nat.le_mul_of_pos_left h h1)) two_pos
  have e2 : 0 < ls2 * h / 2 :=
    Nat.div_pos (le_trans h2le (Nat.le_mul_of_pos_left h h2)) two_pos
  refine ⟨?_, ?_, Nat.mul_pos h0 hh, ?_, ?_⟩
  · simp [calculate_offset_length, AV_PIX_FMT_YUV420P, AV_PIX_FMT_NV12]
  · simp [calculate_offset_length, AV_PIX_FMT_YUV420P, AV_PIX_FMT_NV12]
  · omega
  · omega

/-- Witness for the C2 theorem at height 2 and strides (4, 2, 2). -/
theorem c2_layout_formulas_witness :
    calculate_offset_length AV_PIX_FMT_YUV420P 2 [4, 2, 2, 0, 0, 0, 0, 0] =
      some ([8, 10, 0, 0, 0, 0, 0, 0], 12) ∧
    calculate_offset_length AV_PIX_FMT_NV12 2 [4, 2, 2, 0, 0, 0, 0, 0] =
      some ([8, 0, 0, 0, 0, 0, 0, 0], 10) ∧
    0 < 8 ∧ 8 < 10 ∧ 10 < 12 := by
  have := c2_layout_formulas 2 4 2 2 (by decide) (by decide) (by decide)
    (by decide) (by decide)
  simpa using this

/-- Claim C5, counterexample: format tag 4 is neither of the two
supported tags and the call returns the error code -1, but the caller's
stride output IS modified — it is overwritten with the engine-reported
strides before the format check runs — contradicting "writes no output
layout (the caller's stride, offset and length outputs are left
unmodified)". -/
theorem c5_counterexample :
    (ffmpeg_ram_get_linesize_offset_length 4 4 true
        (.ok [12, 6, 6, 0, 0, 0, 0, 0])
        ⟨some [0, 0, 0, 0, 0, 0, 0, 0], some [0, 0, 0, 0, 0, 0, 0, 0], some 0⟩).1 = -1 ∧
    (ffmpeg_ram_get_linesize_offset_length 4 4 true
        (.ok [12, 6, 6, 0, 0, 0, 0, 0])
        ⟨some [0, 0, 0, 0, 0, 0, 0, 0], some [0, 0, 0, 0, 0, 0, 0, 0], some 0⟩).2.linesize
      = some [12, 6, 6, 0, 0, 0, 0, 0] ∧
    some [12, 6, 6, 0, 0, 0, 0, 0] ≠ some [(0 : Nat), 0, 0, 0, 0, 0, 0, 0] := by
  decide

/-- Claim C5, amended: for every format tag other than the two supported
ones, when the caller requests offsets or the total length the call
returns a negative error code, and the offset and length outputs are left
unmodified; the stride output, however, is overwritten with the
engine-reported strides whenever frame and buffer allocation succeed (it
is filled before the format check), and is left unmodified only when the
underlying allocation itself fails. -/
theorem c5_amended_unsupported_format (pf : Int) (height : Nat) (fa : Bool)
    (gb : GetBufferOutcome) (out : GloOut)
    (hp : pf ≠ AV_PIX_FMT_YUV420P) (hn : pf ≠ AV_PIX_FMT_NV12)
    (hgb : ∀ c, gb = .err c → c < 0)
    (hreq : out.offset.isSome ∨ out.length.isSome) :
    (ffmpeg_ram_get_linesize_offset_length pf height fa gb out).1 < 0 ∧
    (ffmpeg_ram_get_linesize_offset_length pf height fa gb out).2.offset = out.offset ∧
    (ffmpeg_ram_get_linesize_offset_length pf height fa gb out).2.length = out.length ∧
    (∀ ls, fa = true → gb = .ok ls →
      (ffmpeg_ram_get_linesize_offset_length pf height fa gb out).2.linesize =
        out.linesize.map fun _ => ls) ∧
    ((fa = false ∨ ∃ c, gb = .err c) →
      (ffmpeg_ram_get_linesize_offset_length pf height fa gb out).2 = out) := by
  have hcalc : ∀ ls, calculate_offset_length pf height ls = none := by
    intro ls
    simp [calculate_offset_length, hp, hn]
  cases fa with
  | false =>
    refine ⟨by norm_num [ffmpeg_ram_get_linesize_offset_length], ?_, ?_, ?_, ?_⟩ <;>
      simp [ffmpeg_ram_get_linesize_offset_length]
  | true =>
    cases gb with
    | err c =>
      have hc : c < 0 := hgb c rfl
      refine ⟨?_, ?_, ?_, ?_, ?_⟩ <;>
        simp [ffmpeg_ram_get_linesize_offset_length, hc]
    | ok ls =>
      refine ⟨?_, ?_, ?_, ?_, ?_⟩ <;>
        simp [ffmpeg_ram_get_linesize_offset_length, hcalc, hreq]

/-- Witness for the amended C5 theorem at format tag 5 with a successful
buffer allocation. -/
theorem c5_amended_unsupported_format_witness :
    (5 : Int) ≠ AV_PIX_FMT_YUV420P ∧ (5 : Int) ≠ AV_PIX_FMT_NV12 ∧
    (ffmpeg_ram_get_linesize_offset_length 5 2 true (.ok [8, 4, 4, 0, 0, 0, 0, 0])
        ⟨some [0, 0, 0, 0, 0, 0, 0, 0], some [0, 0, 0, 0, 0, 0, 0, 0], some 0⟩).1 < 0 ∧
    (ffmpeg_ram_get_linesize_offset_length 5 2 true (.ok [8, 4, 4, 0, 0, 0, 0, 0])
        ⟨some [0, 0, 0, 0, 0, 0, 0, 0], some [0, 0, 0, 0, 0, 0, 0, 0], some 0⟩).2.offset
      = some [0, 0, 0, 0, 0, 0, 0, 0] := by
  have := c5_amended_unsupported_format 5 2 true (.ok [8, 4, 4, 0, 0, 0, 0, 0])
    ⟨some [0, 0, 0, 0, 0, 0, 0, 0], some [0, 0, 0, 0, 0, 0, 0, 0], some 0⟩
    (by decide) (by decide) (by intro c hc; cases hc) (by simp)
  exact ⟨by decide, by decide, this.1, this.2.1⟩

/-- Claim C7: `set_bitrate` on a name containing `"nvenc"` or `"amf"`
(the families with live bitrate renegotiation) returns 0 and updates the
engine bitrate; on every other name it returns a negative code and
leaves the engine bitrate untouched. -/
theorem c7_set_bitrate (name : String) (cur br : Int) :
    ((strContains name "nvenc" || strContains name "amf") = true →
      set_bitrate name cur br = (0, br)) ∧
    ((strContains name "nvenc" || strContains name "amf") = false →
      (set_bitrate name cur br).1 < 0 ∧ (set_bitrate name cur br).2 = cur) := by
  constructor <;> intro hsup <;> simp [set_bitrate, hsup]

/-- Witness for the C7 theorem: `libx264` has no live-bitrate support,
so the call fails and leaves the bitrate unchanged. -/
theorem c7_set_bitrate_witness :
    (strContains "libx264" "nvenc" || strContains "libx264" "amf") = false ∧
    (set_bitrate "libx264" 5 7).1 < 0 ∧ (set_bitrate "libx264" 5 7).2 = 5 :=
  ⟨by decide, (c7_set_bitrate "libx264" 5 7).2 (by decide)⟩

/-- Claim C9, counterexample: destroying a live non-null handle and then
calling destroy again on the same handle is `delete` through a dangling
pointer — undefined behavior, not the promised benign no-op. -/
theorem c9_counterexample :
    (ffmpeg_ram_free_encoder (ffmpeg_ram_free_encoder [5] 5).2 5).1 = .ub ∧
    FreeOutcome.ub ≠ FreeOutcome.ok := by decide

/-- Claim C9, amended: `ffmpeg_ram_free_encoder` on a null handle is a
no-op and never crashes, and destroying a live handle is defined and
removes it; but the code does not track handle liveness, so a second
destroy of the same non-null handle (and any other use of it) is
undefined behavior — the caller must not reuse a destroyed handle. -/
theorem c9_amended_free (live : List Nat) (p : Nat) :
    ffmpeg_ram_free_encoder live 0 = (.ok, live) ∧
    (p ∈ live → (ffmpeg_ram_free_encoder live p).1 = .ok) ∧
    (p ≠ 0 → live.Nodup → p ∈ live →
      (ffmpeg_ram_free_encoder (ffmpeg_ram_free_encoder live p).2 p).1 = .ub) := by
  refine ⟨by simp [ffmpeg_ram_free_encoder], ?_, ?_⟩
  · intro hm
    by_cases hp : p = 0 <;> simp [ffmpeg_ram_free_encoder, hp, hm]
  · intro hp hnd hm
    simp [ffmpeg_ram_free_encoder, hp, hm, hnd.not_mem_erase]

/-- Witness for the amended C9 theorem on the one-handle heap `[5]`. -/
theorem c9_amended_free_witness :
    ffmpeg_ram_free_encoder [] 0 = (.ok, []) ∧
    (ffmpeg_ram_free_encoder [5] 5).1 = .ok ∧
    (ffmpeg_ram_free_encoder (ffmpeg_ram_free_encoder [5] 5).2 5).1 = .ub :=
  ⟨(c9_amended_free [] 0).1,
   (c9_amended_free [5] 5).2.1 (by decide),
   (c9_amended_free [5] 5).2.2 (by decide) (by decide) (by decide)⟩

/-- Claim C10, counterexample: a codec name containing both `"vaapi"` and
`"nvenc"`, built for Windows, selects the VAAPI device type — not the
D3D11 one the claim assigns to every name containing `"nvenc"` (the
`"vaapi"` test runs first). -/
theorem c10_counterexample :
    (mkEncoder true { sampleVaapiCfg with name := "vaapinvenc" }).hw_device_type
      = AVHWDeviceType.vaapi ∧
    strContains "vaapinvenc" "nvenc" = true ∧
    AVHWDeviceType.vaapi ≠ AVHWDeviceType.d3d11va := by decide

/-- Claim C10, amended: back-end selection is purely by substring match
with `"vaapi"` checked first — a name containing `"vaapi"` selects VAAPI;
a name containing `"nvenc"` but not `"vaapi"` selects D3D11 only when
built for Windows and gets no hardware device type otherwise; every other
name gets none.  The constructor stores the configuration unchanged. -/
theorem c10_amended_hw_selection (isWin : Bool) (cfg : EncoderCfg) :
    ((mkEncoder isWin cfg).hw_device_type, (mkEncoder isWin cfg).hw_pixfmt) =
      hwSelectSpec isWin cfg.name ∧
    (mkEncoder isWin cfg).cfg = cfg := by
  constructor
  · unfold mkEncoder hwSelectSpec
    by_cases hv : strContains cfg.name "vaapi" = true <;>
      by_cases hn : strContains cfg.name "nvenc" = true <;>
      cases isWin <;> simp_all
  · unfold mkEncoder
    split_ifs <;> rfl

/-- Claim C4, counterexample: a YUV420P session with engine strides
(6, 3, 3) at height 2 (width 6, alignment 1) has computed totalLength 18,
yet a buffer of length 17 — below that totalLength — passes `fill_frame`'s
check (whose threshold is 2*(6 + 3/2 + 3/2) = 16 by integer division), so
`encode` proceeds, returns 0 and invokes the callback once instead of
failing with zero invocations. -/
theorem c4_counterexample :
    (calculate_offset_length AV_PIX_FMT_YUV420P 2 [6, 3, 3, 0, 0, 0, 0, 0]).map Prod.snd
      = some 18 ∧
    (17 : Nat) < 18 ∧
    (encode (mkEncoder false sampleSwCfg) [6, 3, 3, 0, 0, 0, 0, 0]
        [12, 15, 0, 0, 0, 0, 0, 0]
        ⟨0, 0, ⟨0, [⟨100, true⟩], AVERROR_EAGAIN⟩⟩ ⟨0⟩ 17 0).1 = 0 ∧
    (encode (mkEncoder false sampleSwCfg) [6, 3, 3, 0, 0, 0, 0, 0]
        [12, 15, 0, 0, 0, 0, 0, 0]
        ⟨0, 0, ⟨0, [⟨100, true⟩], AVERROR_EAGAIN⟩⟩ ⟨0⟩ 17 0).2.2.1.length = 1 := by
  decide

/-- Claim C4, amended: for every buffer shorter than `fill_frame`'s own
minimum — `height*(stride0 + stride1/2)` for semi-planar,
`height*(stride0 + stride1/2 + stride2/2)` for planar — `encode` (after a
successful make-writable) returns -1, invokes the callback zero times,
sends no frame to the engine and leaves the session state unchanged;
whenever the chroma strides are even this minimum coincides with the
totalLength computed by `calculate_offset_length`, so the original claim
holds for even-stride sessions. -/
theorem c4_amended_short_buffer (enc : EncoderFields) (linesize offset : List Nat)
    (env : EncodeEnv) (s : EncState) (len : Nat) (ms : Int)
    (hmw : env.makeWritableRet = 0)
    (hshort : len < fill_min enc.cfg.pixfmt enc.cfg.height linesize) :
    encode enc linesize offset env s len ms = (-1, s, [], false) ∧
    (∀ h l0 l1 l2 : Nat, 2 ∣ l1 →
      (calculate_offset_length AV_PIX_FMT_NV12 h [l0, l1, l2, 0, 0, 0, 0, 0]).map Prod.snd
        = some (fill_min AV_PIX_FMT_NV12 h [l0, l1, l2, 0, 0, 0, 0, 0])) ∧
    (∀ h l0 l1 l2 : Nat, 2 ∣ l1 → 2 ∣ l2 →
      (calculate_offset_length AV_PIX_FMT_YUV420P h [l0, l1, l2, 0, 0, 0, 0, 0]).map Prod.snd
        = some (fill_min AV_PIX_FMT_YUV420P h [l0, l1, l2, 0, 0, 0, 0, 0])) := by
  have hff : fill_frame enc.cfg.pixfmt enc.cfg.height linesize len offset = none := by
    unfold fill_frame
    split_ifs <;> rfl
  refine ⟨by simp [encode, hmw, hff], ?_, ?_⟩
  · rintro h l0 l1 l2 ⟨k, rfl⟩
    have e1 : 2 * k * h / 2 = k * h := by
      rw [mul_assoc]
      exact Nat.mul_div_cancel_left _ two_pos
    have e2 : 2 * k / 2 = k := Nat.mul_div_cancel_left _ two_pos
    simp [calculate_offset_length, fill_min, AV_PIX_FMT_NV12, AV_PIX_FMT_YUV420P, e1, e2]
    ring
  · rintro h l0 l1 l2 ⟨k, rfl⟩ ⟨m, rfl⟩
    have e1 : 2 * k * h / 2 = k * h := by
      rw [mul_assoc]
      exact Nat.mul_div_cancel_left _ two_pos
    have e2 : 2 * k / 2 = k := Nat.mul_div_cancel_left _ two_pos
    have e3 : 2 * m * h / 2 = m * h := by
      rw [mul_assoc]
      exact Nat.mul_div_cancel_left _ two_pos
    have e4 : 2 * m / 2 = m := Nat.mul_div_cancel_left _ two_pos
    simp [calculate_offset_length, fill_min, AV_PIX_FMT_NV12, AV_PIX_FMT_YUV420P,
      e1, e2, e3, e4]
    ring

/-- Witness for the amended C4 theorem: a 15-byte buffer on the
(6, 3, 3)-stride YUV420P session is rejected with no callback and no
frame sent. -/
theorem c4_amended_short_buffer_witness :
    (⟨0, 0, onePkt⟩ : EncodeEnv).makeWritableRet = 0 ∧
    15 < fill_min (mkEncoder false sampleSwCfg).cfg.pixfmt
        (mkEncoder false sampleSwCfg).cfg.height [6, 3, 3, 0, 0, 0, 0, 0] ∧
    encode (mkEncoder false sampleSwCfg) [6, 3, 3, 0, 0, 0, 0, 0]
        [12, 15, 0, 0, 0, 0, 0, 0] ⟨0, 0, onePkt⟩ ⟨0⟩ 15 0 = (-1, ⟨0⟩, [], false) :=
  ⟨rfl, by decide,
   (c4_amended_short_buffer (mkEncoder false sampleSwCfg) [6, 3, 3, 0, 0, 0, 0, 0]
      [12, 15, 0, 0, 0, 0, 0, 0] ⟨0, 0, onePkt⟩ ⟨0⟩ 15 0 rfl (by decide)).1⟩

/-- If `set_hwframe_ctx` succeeded, its event list is: frames-context
allocation, the pool configuration with `initial_pool_size = 1` and the
session's dimensions and formats, then the binding to the codec context. -/
lemma set_hwframe_ctx_ok (enc : EncoderFields) (env : InitEnv)
    (h : (set_hwframe_ctx enc env).1 = 0) :
    (set_hwframe_ctx enc env).2 = [.hwframe_ctx_alloc,
      .hwframe_ctx_init 1 enc.cfg.width enc.cfg.height enc.hw_pixfmt enc.cfg.pixfmt,
      .bind_frames_ctx] := by
  by_cases a : env.hwFrameCtxAllocOk = false
  · exfalso
    simp [set_hwframe_ctx, a] at h
  by_cases b : env.hwFrameCtxInitRet < 0
  · exfalso
    simp [set_hwframe_ctx, a, b] at h
    omega
  by_cases c : env.bufferRefOk = false
  · exfalso
    simp [set_hwframe_ctx, a, b, c] at h
  · simp [set_hwframe_ctx, a, b, c]

/-- A successful `init_rest` appends exactly the software-frame buffer
allocation, the engine open, and the layout query to the trace. -/
lemma init_rest_ok_trace (enc : EncoderFields) (env : InitEnv) (tr : List Ev)
    (hok : (init_rest enc env tr).1 = true) :
    (init_rest enc env tr).2.1 = tr ++ [.frame_get_buffer, .open2, .layout_query] := by
  unfold init_rest at hok ⊢
  split_ifs at hok ⊢ <;> simp_all

/-- A successful `init_rest` leaves the context exactly as `configureCtx`
set it. -/
lemma init_rest_ok_ctx (enc : EncoderFields) (env : InitEnv) (tr : List Ev)
    (hok : (init_rest enc env tr).1 = true) :
    (init_rest enc env tr).2.2 = configureCtx enc defaultCtx := by
  unfold init_rest at hok ⊢
  split_ifs at hok ⊢ <;> simp_all

/-- A successful hardware-path `init` ran the whole hardware block and
continued into `init_rest` with the hardware events in the trace. -/
lemma init_ok_hw (enc : EncoderFields) (env : InitEnv)
    (hhw : enc.hw_device_type ≠ .none) (hok : (init enc env).1 = true) :
    init enc env = init_rest enc env
      (Ev.hwdevice_ctx_create :: (set_hwframe_ctx enc env).2 ++ [.hwframe_get_buffer]) ∧
    (set_hwframe_ctx enc env).1 = 0 := by
  have h1 : env.findCodecOk = true := by
    by_contra hc
    rw [Bool.not_eq_true] at hc
    simp [init, hc] at hok
  have h2 : env.allocCtxOk = true := by
    by_contra hc
    rw [Bool.not_eq_true] at hc
    simp [init, h1, hc] at hok
  have h3 : ¬ env.hwDevRet < 0 := by
    intro hc
    simp [init, h1, h2, hhw, hc] at hok
  have h4 : (set_hwframe_ctx enc env).1 = 0 := by
    by_contra hc
    simp [init, h1, h2, hhw, h3, hc] at hok
  have h5 : env.hwFrameAllocOk = true := by
    by_contra hc
    rw [Bool.not_eq_true] at hc
    simp [init, h1, h2, hhw, h3, h4, hc] at hok
  have h6 : ¬ env.hwGetBufferRet < 0 := by
    intro hc
    simp [init, h1, h2, hhw, h3, h4, h5, hc] at hok
  have h7 : env.hwFrameHasCtx = true := by
    by_contra hc
    rw [Bool.not_eq_true] at hc
    simp [init, h1, h2, hhw, h3, h4, h5, h6, hc] at hok
  exact ⟨by simp [init, h1, h2, hhw, h3, h4, h5, h6, h7], h4⟩

/-- Without a hardware device type, `init` is the two allocation checks
followed by `init_rest` with an empty trace. -/
lemma init_ok_sw (enc : EncoderFields) (env : InitEnv)
    (hhw : ¬ enc.hw_device_type ≠ .none) :
    init enc env = if env.findCodecOk = false then (false, [], defaultCtx)
      else if env.allocCtxOk = false then (false, [], defaultCtx)
      else init_rest enc env [] := by
  simp only [init, hhw, if_false]

/-- The full event trace of a successful hardware-path `init`. -/
lemma init_ok_trace_hw (enc : EncoderFields) (env : InitEnv)
    (hhw : enc.hw_device_type ≠ .none) (hok : (init enc env).1 = true) :
    (init enc env).2.1 = [.hwdevice_ctx_create, .hwframe_ctx_alloc,
      .hwframe_ctx_init 1 enc.cfg.width enc.cfg.height enc.hw_pixfmt enc.cfg.pixfmt,
      .bind_frames_ctx, .hwframe_get_buffer, .frame_get_buffer, .open2, .layout_query] := by
  obtain ⟨heq, hshc⟩ := init_ok_hw enc env hhw hok
  rw [heq] at hok ⊢
  rw [init_rest_ok_trace enc env _ hok, set_hwframe_ctx_ok enc env hshc]
  simp

/-- A successful `init` (hardware or not) leaves the context exactly as
`configureCtx` set it. -/
lemma init_ok_ctx (enc : EncoderFields) (env : InitEnv)
    (hok : (init enc env).1 = true) :
    (init enc env).2.2 = configureCtx enc defaultCtx := by
  by_cases hhw : enc.hw_device_type ≠ .none
  · obtain ⟨heq, -⟩ := init_ok_hw enc env hhw hok
    rw [heq] at hok ⊢
    exact init_rest_ok_ctx enc env _ hok
  · rw [init_ok_sw enc env hhw] at hok ⊢
    split_ifs at hok ⊢
    exact init_rest_ok_ctx enc env _ hok

/-- The success bit of `set_hwframe_ctx` depends only on the environment. -/
lemma set_hwframe_ctx_fst (enc₁ enc₂ : EncoderFields) (env : InitEnv) :
    (set_hwframe_ctx enc₁ env).1 = (set_hwframe_ctx enc₂ env).1 := by
  unfold set_hwframe_ctx
  split_ifs <;> rfl

/-- The success bit of `init_rest` depends only on the environment. -/
lemma init_rest_fst (enc₁ enc₂ : EncoderFields) (env : InitEnv) (tr₁ tr₂ : List Ev) :
    (init_rest enc₁ env tr₁).1 = (init_rest enc₂ env tr₂).1 := by
  unfold init_rest
  split_ifs <;> rfl

/-- Replacing the stored configuration (hardware selection unchanged)
cannot change whether `init` succeeds. -/
lemma init_fst_cfg (enc : EncoderFields) (c : EncoderCfg) (env : InitEnv) :
    (init { enc with cfg := c } env).1 = (init enc env).1 := by
  simp only [init, set_hwframe_ctx_fst { enc with cfg := c } enc env]
  split_ifs <;> first | rfl | apply init_rest_fst

/-- Claim C6: in every successful hardware-backed `init`, every
frames-context pool the session configures has pool size exactly 1 and
the session's width and height, and the pool is bound to the codec
context strictly before `avcodec_open2` runs. -/
theorem c6_hw_pool_and_order (enc : EncoderFields) (env : InitEnv)
    (hhw : enc.hw_device_type ≠ .none)
    (hok : (init enc env).1 = true) :
    (∀ ps w h f sf, Ev.hwframe_ctx_init ps w h f sf ∈ (init enc env).2.1 →
      ps = 1 ∧ w = enc.cfg.width ∧ h = enc.cfg.height) ∧
    ∃ l1 l2 l3, (init enc env).2.1 =
      l1 ++ Ev.bind_frames_ctx :: (l2 ++ Ev.open2 :: l3) := by
  rw [init_ok_trace_hw enc env hhw hok]
  constructor
  · intro ps w h f sf hmem
    simp only [List.mem_cons, List.not_mem_nil, or_false] at hmem
    rcases hmem with h' | h' | h' | h' | h' | h' | h' | h' <;>
      first
      | (cases h'; exact ⟨rfl, rfl, rfl⟩)
      | (cases h')
  · exact ⟨[Ev.hwdevice_ctx_create, Ev.hwframe_ctx_alloc,
      Ev.hwframe_ctx_init 1 enc.cfg.width enc.cfg.height enc.hw_pixfmt enc.cfg.pixfmt],
      [Ev.hwframe_get_buffer, Ev.frame_get_buffer], [Ev.layout_query], by simp⟩

/-- Witness for the C6 theorem: a VAAPI session with every engine call
succeeding. -/
theorem c6_hw_pool_and_order_witness :
    (∀ ps w h f sf, Ev.hwframe_ctx_init ps w h f sf ∈
        (init (mkEncoder false sampleVaapiCfg) allOkEnv).2.1 →
      ps = 1 ∧ w = (mkEncoder false sampleVaapiCfg).cfg.width ∧
        h = (mkEncoder false sampleVaapiCfg).cfg.height) ∧
    ∃ l1 l2 l3, (init (mkEncoder false sampleVaapiCfg) allOkEnv).2.1 =
      l1 ++ Ev.bind_frames_ctx :: (l2 ++ Ev.open2 :: l3) :=
  c6_hw_pool_and_order (mkEncoder false sampleVaapiCfg) allOkEnv (by decide) (by decide)

/-- Claim C8: on every successful session creation the engine's bitrate
parameter is set if and only if the caller-supplied bitrate is at least
1000 (and then to exactly that value); a below-threshold bitrate leaves
the engine default untouched, and the bitrate value can never turn a
successful creation into a failure (it is not an error). -/
theorem c8_bitrate_threshold (enc : EncoderFields) (env : InitEnv)
    (hok : (init enc env).1 = true) :
    (init enc env).2.2.bit_rate =
      (if 1000 ≤ enc.cfg.bit_rate then some enc.cfg.bit_rate else none) ∧
    ∀ b : Int, (init { enc with cfg := { enc.cfg with bit_rate := b } } env).1 = true := by
  constructor
  · rw [init_ok_ctx enc env hok]
    simp [configureCtx, defaultCtx]
  · intro b
    rw [init_fst_cfg enc _ env]
    exact hok

/-- Witness for the C8 theorem: bitrate 2000000 is set verbatim on a
successful software-path creation. -/
theorem c8_bitrate_threshold_witness :
    (init (mkEncoder false sampleSwCfg) allOkEnv).1 = true ∧
    (init (mkEncoder false sampleSwCfg) allOkEnv).2.2.bit_rate = some 2000000 :=
  ⟨by decide, by
    rw [(c8_bitrate_threshold (mkEncoder false sampleSwCfg) allOkEnv (by decide)).1]
    decide⟩

lemma drain_packets_latched (s : EncState) (ms : Int) (ps : List AVPacketData)
    (h : s.first_ms ≠ 0) :
    drain_packets s ms ps = (s, ps.map fun p => ⟨p.size, ms - s.first_ms, p.isKey⟩) := by
  induction ps with
  | nil => simp [drain_packets]
  | cons p ps ih => simp [drain_packets, h, ih]

lemma drain_packets_zero (ps : List AVPacketData) :
    drain_packets ⟨0⟩ 0 ps = (⟨0⟩, ps.map fun p => ⟨p.size, 0, p.isKey⟩) := by
  induction ps with
  | nil => simp [drain_packets]
  | cons p ps ih => simp [drain_packets, ih]

lemma drain_packets_latch (ms : Int) (hms : ms ≠ 0) (p : AVPacketData)
    (ps : List AVPacketData) :
    drain_packets ⟨0⟩ ms (p :: ps) = (⟨ms⟩, (p :: ps).map fun q => ⟨q.size, 0, q.isKey⟩) := by
  simp [drain_packets, drain_packets_latched ⟨ms⟩ ms ps hms]

lemma runSessionFrom_latched (a : Int) (ha : a ≠ 0) (calls : List (EngineCall × Int)) :
    runSessionFrom ⟨a⟩ calls = (⟨a⟩, calls.flatMap fun c =>
      if c.1.sendRet < 0 then [] else c.1.pkts.map fun p => ⟨p.size, c.2 - a, p.isKey⟩) := by
  induction calls with
  | nil => simp [runSessionFrom]
  | cons c cs ih =>
    by_cases hs : c.1.sendRet < 0
    · simp [runSessionFrom, do_encode, hs, ih]
    · simp [runSessionFrom, do_encode, hs, drain_packets_latched ⟨a⟩ c.2 c.1.pkts ha, ih]

lemma flatMap_pts (a : Int) (cs : List (EngineCall × Int)) :
    ((cs.flatMap fun c =>
      if c.1.sendRet < 0 then [] else
        c.1.pkts.map fun p => (⟨p.size, c.2 - a, p.isKey⟩ : CallbackRec)).map CallbackRec.pts) =
      (packetMsList cs).map fun x => x - a := by
  induction cs with
  | nil => simp [packetMsList]
  | cons c cs ih =>
    by_cases hs : c.1.sendRet < 0 <;>
      simp [packetMsList, hs, ih, Function.comp_def]

lemma anchor_nonneg (r : List Int) (hpos : ∀ x ∈ r, 0 ≤ x) : 0 ≤ latchAnchor r := by
  unfold latchAnchor
  cases hf : r.filter (fun x => x ≠ 0) with
  | nil => simp
  | cons y t =>
    have : y ∈ r.filter (fun x => x ≠ 0) := by
      rw [hf]; exact List.mem_cons_self y t
    simpa using hpos y (List.mem_of_mem_filter this)

lemma anchor_zero_prefix (l : List AVPacketData) (r : List Int) :
    latchAnchor ((l.map fun _ => (0 : Int)) ++ r) = latchAnchor r := by
  unfold latchAnchor
  rw [List.filter_append]
  congr 1
  simp

lemma anchor_const_prefix (m : Int) (hm : m ≠ 0) (p : AVPacketData)
    (l : List AVPacketData) (r : List Int) :
    latchAnchor (((p :: l).map fun _ => m) ++ r) = m := by
  simp [latchAnchor, hm]

lemma anchor_head_ne (x : Int) (hx : x ≠ 0) (xs : List Int) :
    latchAnchor (x :: xs) = x := by
  simp [latchAnchor, hx]

lemma runSessionFrom_cons (s : EncState) (c : EngineCall × Int)
    (cs : List (EngineCall × Int)) :
    runSessionFrom s (c :: cs) =
      ((runSessionFrom (do_encode c.1 s c.2).2.1 cs).1,
       (do_encode c.1 s c.2).2.2 ++ (runSessionFrom (do_encode c.1 s c.2).2.1 cs).2) := by
  simp [runSessionFrom]

lemma runSession_pts_closed (calls : List (EngineCall × Int))
    (hpos : ∀ x ∈ packetMsList calls, 0 ≤ x)
    (hmono : (packetMsList calls).Chain' (· ≤ ·)) :
    ((runSession calls).2.map CallbackRec.pts) =
      (packetMsList calls).map fun x => max 0 (x - latchAnchor (packetMsList calls)) := by
  unfold runSession
  induction calls with
  | nil =>
    simp [runSessionFrom, packetMsList]
  | cons c cs ih =>
    have hms_split : packetMsList (c :: cs) =
        (if c.1.sendRet < 0 then [] else c.1.pkts.map fun _ => c.2) ++ packetMsList cs := by
      simp [packetMsList]
    by_cases hs : c.1.sendRet < 0
    · have hms : packetMsList (c :: cs) = packetMsList cs := by simp [hms_split, hs]
      rw [hms] at hpos hmono ⊢
      rw [runSessionFrom_cons]
      simp only [do_encode, if_pos hs]
      simpa using ih hpos hmono
    · cases hp : c.1.pkts with
      | nil =>
        have hms : packetMsList (c :: cs) = packetMsList cs := by
          simp [hms_split, hs, hp]
        rw [hms] at hpos hmono ⊢
        rw [runSessionFrom_cons]
        simp only [do_encode, if_neg hs, hp, drain_packets]
        simpa using ih hpos hmono
      | cons p ps =>
        by_cases hz : c.2 = 0
        · -- zero timestamp: no latch, this call's packets all get pts 0
          have hms : packetMsList (c :: cs) =
              ((p :: ps).map fun _ => (0 : Int)) ++ packetMsList cs := by
            rw [hms_split, if_neg hs, hp, hz]
          have hpos' : ∀ x ∈ packetMsList cs, 0 ≤ x := fun x hx =>
            hpos x (by rw [hms]; exact List.mem_append_right _ hx)
          have hmono' : (packetMsList cs).Chain' (· ≤ ·) := by
            rw [hms] at hmono
            exact (List.chain'_append.mp hmono).2.1
          have hanchor : latchAnchor (packetMsList (c :: cs)) = latchAnchor (packetMsList cs) := by
            rw [hms]
            exact anchor_zero_prefix _ _
          have hA : 0 ≤ latchAnchor (packetMsList cs) := anchor_nonneg _ hpos'
          have hdo : do_encode c.1 ⟨0⟩ c.2 =
              ((if (p :: ps).isEmpty then -1 else 0), ⟨0⟩,
                (p :: ps).map fun q => ⟨q.size, 0, q.isKey⟩) := by
            rw [do_encode, if_neg hs, hp, hz, drain_packets_zero]
          rw [runSessionFrom_cons, hdo, hanchor, hms]
          simp only [List.map_append]
          rw [ih hpos' hmono']
          congr 1
          simp only [List.map_map]
          refine List.map_congr_left fun q hq => ?_
          simp only [Function.comp_apply]
          exact (max_eq_left (by omega)).symm
        · -- nonzero timestamp: latch to c.2
          have hms : packetMsList (c :: cs) =
              ((p :: ps).map fun _ => c.2) ++ packetMsList cs := by
            rw [hms_split, if_neg hs, hp]
          have hanchor : latchAnchor (packetMsList (c :: cs)) = c.2 := by
            rw [hms]
            exact anchor_const_prefix c.2 hz p ps _
          have hle : ∀ x ∈ packetMsList cs, c.2 ≤ x := by
            rw [hms] at hmono
            have hpw := (List.chain'_iff_pairwise).mp hmono
            intro x hx
            exact (List.pairwise_append.mp hpw).2.2 c.2
              (by simp) x hx
          have hdo : do_encode c.1 ⟨0⟩ c.2 =
              ((if (p :: ps).isEmpty then -1 else 0), ⟨c.2⟩,
                (p :: ps).map fun q => ⟨q.size, 0, q.isKey⟩) := by
            rw [do_encode, if_neg hs, hp, drain_packets_latch c.2 hz p ps]
          rw [runSessionFrom_cons, hdo, hanchor, hms]
          simp only [List.map_append]
          congr 1
          · simp [Function.comp_def, hz]
          · rw [runSessionFrom_latched c.2 hz cs, flatMap_pts]
            refine List.map_congr_left fun x hx => ?_
            have := hle x hx
            omega

/-- Claim C3, amended: `first_ms_` (initialized to 0) is latched on the
first delivered packet whose timestamp is nonzero — 0 acts as the "unset"
sentinel — and every delivered packet carries
`pts = (the timestamp of the encode call that drained it) - first_ms_`.
For timestamps that are non-negative and non-decreasing in delivery
order, the pts stream equals `max 0 (t - anchor)` where `anchor` is the
first nonzero delivered timestamp; hence the first packet's pts is 0,
all pts are non-negative and non-decreasing, and when the first
timestamp is nonzero every pts equals its timestamp minus the first
packet's timestamp, exactly as the original claim states. -/
theorem c3_amended_pts (calls : List (EngineCall × Int))
    (hpos : ∀ x ∈ packetMsList calls, 0 ≤ x)
    (hmono : (packetMsList calls).Chain' (· ≤ ·)) :
    ((runSession calls).2.map CallbackRec.pts =
      (packetMsList calls).map fun x => max 0 (x - latchAnchor (packetMsList calls))) ∧
    (∀ cb cbs, (runSession calls).2 = cb :: cbs → cb.pts = 0) ∧
    (∀ cb ∈ (runSession calls).2, 0 ≤ cb.pts) ∧
    ((runSession calls).2.map CallbackRec.pts).Chain' (· ≤ ·) ∧
    ((packetMsList calls).headD 0 ≠ 0 →
      (runSession calls).2.map CallbackRec.pts =
        (packetMsList calls).map fun x => x - (packetMsList calls).headD 0) := by
  have hclosed := runSession_pts_closed calls hpos hmono
  refine ⟨hclosed, ?_, ?_, ?_, ?_⟩
  · intro cb cbs hcb
    rw [hcb] at hclosed
    cases hm : packetMsList calls with
    | nil =>
      rw [hm] at hclosed
      simp at hclosed
    | cons x xs =>
      rw [hm] at hclosed
      simp only [List.map_cons, List.cons.injEq] at hclosed
      rw [hclosed.1]
      by_cases hx : x = 0
      · subst hx
        have hA : 0 ≤ latchAnchor ((0 : Int) :: xs) := by
          have he : latchAnchor ((0 : Int) :: xs) = latchAnchor xs := by
            simp [latchAnchor]
          rw [he]
          refine anchor_nonneg xs fun y hy => hpos y ?_
          rw [hm]
          exact List.mem_cons_of_mem _ hy
        exact max_eq_left (by omega)
      · rw [anchor_head_ne x hx]
        simp
  · intro cb hcb
    have hmem : cb.pts ∈ (runSession calls).2.map CallbackRec.pts :=
      List.mem_map_of_mem CallbackRec.pts hcb
    rw [hclosed] at hmem
    obtain ⟨x, -, hx⟩ := List.mem_map.mp hmem
    rw [← hx]
    exact le_max_left 0 _
  · rw [hclosed, List.chain'_map]
    exact hmono.imp fun {a b} hab => max_le_max le_rfl (sub_le_sub_right hab _)
  · intro h0
    cases hm : packetMsList calls with
    | nil => rw [hm] at h0; simp at h0
    | cons x xs =>
      rw [hm] at h0
      simp only [List.headD_cons] at h0
      rw [hclosed, hm, anchor_head_ne x h0]
      have hle : ∀ y ∈ x :: xs, x ≤ y := by
        rw [hm] at hmono
        have hpw := (List.chain'_iff_pairwise).mp hmono
        intro y hy
        rcases List.mem_cons.mp hy with rfl | hy'
        · exact le_refl y
        · exact (List.pairwise_cons.mp hpw).1 y hy'
      refine List.map_congr_left fun y hy => ?_
      have := hle y hy
      simp only [List.headD_cons]
      omega

/-- Claim C3, counterexample: a session fed one-packet frames at the
strictly increasing timestamps 0, 33, 66 delivers pts values [0, 0, 33]:
`first_ms_` is NOT latched on the very first packet (its timestamp 0 is
the sentinel "unset" value), so the third packet's pts is 33, not the
66 - 0 the claim requires. -/
theorem c3_counterexample :
    (runSession [(onePkt, 0), (onePkt, 33), (onePkt, 66)]).2.map CallbackRec.pts
      = [0, 0, 33] ∧
    (33 : Int) ≠ 66 - 0 := by decide

theorem c3_amended_pts_witness :
    (∀ x ∈ packetMsList [(onePkt, 5), (onePkt, 33)], 0 ≤ x) ∧
    (packetMsList [(onePkt, 5), (onePkt, 33)]).Chain' (· ≤ ·) ∧
    (runSession [(onePkt, 5), (onePkt, 33)]).2.map CallbackRec.pts =
      (packetMsList [(onePkt, 5), (onePkt, 33)]).map
        (fun x => max 0 (x - latchAnchor (packetMsList [(onePkt, 5), (onePkt, 33)]))) :=
  ⟨by decide, by
    rw [show packetMsList [(onePkt, 5), (onePkt, 33)] = [5, 33] from by decide]
    norm_num [List.chain'_cons, List.chain'_singleton],
    (c3_amended_pts [(onePkt, 5), (onePkt, 33)] (by decide) (by
      rw [show packetMsList [(onePkt, 5), (onePkt, 33)] = [5, 33] from by decide]
      norm_num [List.chain'_cons, List.chain'_singleton])).1⟩


end Hwcodec
